import Mathlib

/-!
Shallow embedding of `log.go` (package `log`): a zap/lumberjack configuration
layer.  Go strings are modelled as Lean `String`; Go `len` on a string (its
UTF-8 byte count) as `byteLen`; Go `int` and `zapcore.Level` (an `int8`) as
`Int`; the filesystem seen by `newDumpFile` as a map from paths to entries.
-/

namespace GoLog

/-- Go `len(s)` for a string: the number of UTF-8 bytes. -/
def byteLen (s : String) : Nat := (s.data.map Char.utf8Size).sum

/-- `sp = string(filepath.Separator)`: the path separator on the target (Unix) platform. -/
def sp : String := "/"

example : byteLen ".log" = 4 := by decide

example : byteLen "-error.log" = 10 := by decide

/-- The `Options` struct of `log.go`.  `zap.Config` is embedded in the Go
struct; of it we model only the fields this layer reads or writes
(`OutputPaths`, `ErrorOutputPaths` live here, the rest in `ZapConfig`). -/
structure Options where
  logFileDir : String
  appName : String
  fileName : String
  errorFileName : String
  warnFileName : String
  infoFileName : String
  debugFileName : String
  level : Int
  maxSize : Int
  maxBackups : Int
  maxAge : Int
  development : Bool
  merge : Bool
  outputPaths : List String
  errorOutputPaths : List String
deriving DecidableEq

/-- The Go zero value of `Options` (every field at its zero value), as produced
for the embedded struct before any field is assigned. -/
def zeroOptions : Options :=
  { logFileDir := "", appName := "", fileName := "", errorFileName := ""
    warnFileName := "", infoFileName := "", debugFileName := ""
    level := 0, maxSize := 0, maxBackups := 0, maxAge := 0
    development := false, merge := false, outputPaths := [], errorOutputPaths := [] }

/-- The struct literal assigned to `l.Opts` at the start of `NewLogger`
(`log.go:98-106`): fields not listed keep their zero value.
`zapcore.DebugLevel = -1`. -/
def defaultOpts : Options :=
  { zeroOptions with
    logFileDir := "", appName := "app", fileName := ".log"
    level := -1, maxSize := 100, maxBackups := 60, maxAge := 30 }

/-- The functional options of `log.go` (`WithMaxSize` … `WithDevelopment`),
one constructor per `With*` combinator, carrying the combinator's argument.
(Named `OptionSpec` because `Option` is taken by Lean; the Go type is
`type Option func(options *Options)`.) -/
inductive OptionSpec where
  | withMaxSize (n : Int)
  | withMaxBackups (n : Int)
  | withMaxAge (n : Int)
  | withLogFileDir (s : String)
  | withAppName (s : String)
  | withLevel (lv : Int)
  | withFileName (s : String)
  | withErrorFileName (s : String)
  | withWarnFileName (s : String)
  | withInfoFileName (s : String)
  | withDebugFileName (s : String)
  | withDevelopment (b : Bool)
deriving DecidableEq

/-- The mutation each `With*` option performs on the `Options` struct. -/
def applyOption (o : Options) : OptionSpec → Options
  | .withMaxSize n => { o with maxSize := n }
  | .withMaxBackups n => { o with maxBackups := n }
  | .withMaxAge n => { o with maxAge := n }
  | .withLogFileDir s => { o with logFileDir := s }
  | .withAppName s => { o with appName := s }
  | .withLevel lv => { o with level := lv }
  | .withFileName s => { o with fileName := s }
  | .withErrorFileName s => { o with errorFileName := s }
  | .withWarnFileName s => { o with warnFileName := s }
  | .withInfoFileName s => { o with infoFileName := s }
  | .withDebugFileName s => { o with debugFileName := s }
  | .withDevelopment b => { o with development := b }

/-- `for _, fn := range opt { fn(l.Opts) }` (`log.go:124-126`): the options are
applied to the struct in caller-supplied order. -/
def applyOpts (o : Options) (optList : List OptionSpec) : Options :=
  optList.foldl applyOption o

/-- `log.go:107-110`: if `LogFileDir` is empty it is set to the absolute path
of the working directory (`filepath.Abs(filepath.Dir(filepath.Join(".")))`,
modelled by the parameter `cwd`) followed by `sp + "logs" + sp`. -/
def resolveDir (cwd : String) (o : Options) : Options :=
  if o.logFileDir = "" then { o with logFileDir := cwd ++ sp ++ "logs" ++ sp } else o

/-- The options state reached just before the caller-supplied options run:
the defaults of `log.go:98-106` with the directory resolution of
`log.go:107-110` applied. -/
def preOpts (cwd : String) : Options := resolveDir cwd defaultOpts

/-- The options state `NewLogger` leaves in `l.Opts`: defaults, directory
resolution, then the caller-supplied options in order (`log.go:98-126`). -/
def NewLoggerOpts (cwd : String) (optList : List OptionSpec) : Options :=
  applyOpts (preOpts cwd) optList

/-- The file-name computation of the closure `f` in `setSyncers`
(`log.go:152-156`): hyphenated name, overwritten by the unhyphenated one
when `len(fN) == len(".log")`. -/
def fileName (dir app fN : String) : String :=
  if byteLen fN = byteLen ".log" then dir ++ sp ++ app ++ fN
  else dir ++ sp ++ app ++ "-" ++ fN

/-- The configuration of the `lumberjack.Logger` built by `setSyncers`
(`log.go:157-164`). -/
structure SinkConf where
  filename : String
  maxSize : Int
  maxBackups : Int
  maxAge : Int
  compress : Bool
  localTime : Bool
deriving DecidableEq

/-- `setSyncers` (`log.go:151-167`): the single file sink, built by applying
the closure `f` to `l.Opts.FileName`. -/
def setSyncers (o : Options) : SinkConf :=
  { filename := fileName o.logFileDir o.appName o.fileName
    maxSize := o.maxSize, maxBackups := o.maxBackups, maxAge := o.maxAge
    compress := true, localTime := true }

/-- The two encoder presets of the zap dependency: `zap.NewDevelopmentConfig`
(colorized, human-readable console formatting) and `zap.NewProductionConfig`
(compact structured JSON encoding). -/
inductive Preset where
  | development
  | production
deriving DecidableEq

/-- A time encoder: a preset's own default, or the custom `timeEncoder` of
`log.go:261-263`. -/
inductive TimeEnc where
  | presetDefault (p : Preset)
  | custom
deriving DecidableEq

/-- The fields of the embedded `zap.Config` that `log.go` reads or writes:
the encoder preset (standing for the whole `EncoderConfig`), the time encoder
inside it, `OutputPaths`, `DisableStacktrace` and the atomic level. -/
structure ZapConfig where
  preset : Preset
  encodeTime : TimeEnc
  outputPaths : List String
  disableStacktrace : Bool
  levelAtomic : Int
deriving DecidableEq

/-- Model of `zap.NewDevelopmentConfig()`: development preset with its own
time encoder, `OutputPaths ["stderr"]`, stacktraces on, level Debug (-1). -/
def devConfig : ZapConfig :=
  { preset := .development, encodeTime := .presetDefault .development
    outputPaths := ["stderr"], disableStacktrace := false, levelAtomic := -1 }

/-- Model of `zap.NewProductionConfig()`: production preset with its own
time encoder, `OutputPaths ["stderr"]`, stacktraces on, level Info (0). -/
def prodConfig : ZapConfig :=
  { preset := .production, encodeTime := .presetDefault .production
    outputPaths := ["stderr"], disableStacktrace := false, levelAtomic := 0 }

/-- The zap configuration `NewLogger` builds (`log.go:111-128`), in source
order: the preset branch on `l.Opts.Development` and the two `OutputPaths`
branches all read `l.Opts` BEFORE the caller-supplied options are applied at
`log.go:124-126`; then `DisableStacktrace` is set and the level is set from
the post-option `l.Opts.Level`. -/
def NewLoggerZapConfig (cwd : String) (optList : List OptionSpec) : ZapConfig :=
  let o1 := preOpts cwd
  let zc0 := if o1.development = true then devConfig else prodConfig
  let zc1 := { zc0 with encodeTime := TimeEnc.custom }
  let zc2 := if o1.outputPaths = [] then { zc1 with outputPaths := ["stdout"] } else zc1
  let zc3 := if o1.errorOutputPaths = [] then { zc2 with outputPaths := ["stderr"] } else zc2
  let oF := applyOpts o1 optList
  { zc3 with disableStacktrace := true, levelAtomic := oF.level }

/-- `filePriority` (`log.go:248-250`): a record at level `lvl` passes the
filter iff `lvl >= l.zapConfig.Level.Level()`, the configured minimum. -/
def filePriority (minL lvl : Int) : Bool := decide (minL ≤ lvl)

/-- The encoder attached to a core in `cores` (`log.go:240-259`): the JSON
encoder for the file sink, the console encoder for the console sink. -/
inductive EncKind where
  | json
  | console
deriving DecidableEq

/-- One `zapcore.Core` of the tee built by `cores`: an encoder and the level
enabler deciding which records the tee delivers to this sink. -/
structure CoreSpec where
  encoder : EncKind
  enabled : Int → Bool

/-- `cores` (`log.go:240-259`): the file core (JSON encoder, `filePriority`)
always; the console core (console encoder, the same `filePriority`) appended
only in development mode.  `minL` is `l.zapConfig.Level.Level()`. -/
def cores (dev : Bool) (minL : Int) : List CoreSpec :=
  let base : List CoreSpec := [⟨.json, filePriority minL⟩]
  if dev = true then base ++ [⟨.console, filePriority minL⟩] else base

/-- Side effects the embedded functions perform: console prints
(`fmt.Println`), writes to a dump file, and records emitted through the
logger itself. -/
inductive Eff where
  | consolePrint (s : String)
  | dumpWrite (path s : String)
  | logInfo (s : String)
deriving DecidableEq

/-- The mutable state of the `Logger` struct (`log.go:82-88`) that this layer
reads back: the `inited` flag, the options and the zap configuration. -/
structure LState where
  inited : Bool
  opts : Options
  zc : ZapConfig
deriving DecidableEq

/-- The process-global state touched by `NewLogger`: the package-level `l`
(nil before the first call) and a counter of sink constructions
(invocations of `setSyncers`/`zapConfig.Build` in `(*Logger).init`). -/
structure GState where
  l : Option LState
  sinkBuilds : Nat
deriving DecidableEq

/-- What a `NewLogger` call returns: `nil` (the no-op result of the
already-initialized branch, `log.go:96`) or the freshly built `*zap.Logger`. -/
inductive NewLoggerRes where
  | noopNil
  | builtLogger
deriving DecidableEq

/-- `NewLogger` (`log.go:90-139`) as a transition on the global state.
Its first statement is `l = &Logger{}`: the global `l` is overwritten with a
fresh zero-valued `Logger` BEFORE `l.inited` is tested, so the test reads the
fresh struct's `inited` (its zero value), not the previous logger's flag.
The else path builds options and zap config, runs `l.init()` (counted in
`sinkBuilds`), sets `inited`, emits the success record and returns the new
logger. -/
def NewLogger (cwd : String) (g : GState) (optList : List OptionSpec) :
    GState × NewLoggerRes × List Eff :=
  let fresh : LState := { inited := false, opts := zeroOptions, zc := prodConfig }
  if fresh.inited then
    ({ g with l := some fresh }, .noopNil, [.logInfo "[NewLogger] logger Inited"])
  else
    let o := NewLoggerOpts cwd optList
    let zc := NewLoggerZapConfig cwd optList
    ({ l := some { inited := true, opts := o, zc := zc }
       sinkBuilds := g.sinkBuilds + 1 },
     .builtLogger, [.logInfo "[NewLogger] success"])

/-- `SetLevel` (`log.go:269-276`): returns at once when the package-level `l`
is nil; otherwise stores the level in `l.Opts.Level`, forwards it to the
atomic level read by `filePriority`, and logs the success record. -/
def SetLevel : Option LState → Int → Option LState × List Eff
  | none, _ => (none, [])
  | some st, lv =>
    let o := { st.opts with level := lv }
    (some { st with opts := o, zc := { st.zc with levelAtomic := o.level } },
     [.logInfo "[SetLevel] success"])

/-- Local time as read by `newDumpFile` (`time.Now()`'s year, month as
`int(now.Month())`, day, hour, minute, second). -/
structure GoTime where
  year : Nat
  month : Nat
  day : Nat
  hour : Nat
  minute : Nat
  second : Nat
deriving DecidableEq

/-- What `os.Stat` reports for a path: no entry, a regular file, or a
directory. -/
inductive FsEntry where
  | absent
  | file
  | dir
deriving DecidableEq

/-- The `isFileExist` closure of `newDumpFile` (`log.go:318-327`): stat error
(no entry) gives false, a directory gives false, otherwise true. -/
def isFileExist (fs : String → FsEntry) (fn : String) : Bool :=
  match fs fn with
  | .absent => false
  | .dir => false
  | .file => true

/-- Go's `%0Nd` verb for a nonnegative integer: the decimal digits,
left-padded with zeros to width `w`. -/
def padZero (w n : Nat) : String :=
  let s := Nat.repr n
  if s.length < w then String.mk (List.replicate (w - s.length) '0') ++ s else s

/-- `strings.TrimRight(s, "/")`: drop every trailing `/`. -/
def trimRightSlash (s : String) : String :=
  String.mk (s.data.reverse.dropWhile (fun c => c == '/')).reverse

/-- `filename := fmt.Sprintf("exceptions.%02d_%02d_%02d", hour, minute, second)`
(`log.go:331`). -/
def dumpBaseName (t : GoTime) : String :=
  "exceptions." ++ padZero 2 t.hour ++ "_" ++ padZero 2 t.minute ++ "_" ++ padZero 2 t.second

/-- `dir := fmt.Sprintf("%s/exceptions/%04d-%02d-%02d/", strings.TrimRight(binDir, "/"), year, month, day)`
(`log.go:332`). -/
def dumpDir (binDir : String) (t : GoTime) : String :=
  trimRightSlash binDir ++ "/exceptions/" ++ padZero 4 t.year ++ "-"
    ++ padZero 2 t.month ++ "-" ++ padZero 2 t.day ++ "/"

/-- `fn := fmt.Sprintf("%s%s.log", dir, filename)` (`log.go:334`): the
collision-free candidate. -/
def dumpBase (binDir : String) (t : GoTime) : String :=
  dumpDir binDir t ++ dumpBaseName t ++ ".log"

/-- `fn = fmt.Sprintf("%s%s_%d.log", dir, filename, n)` (`log.go:341`): the
n-th probe of the collision loop. -/
def dumpCand (binDir : String) (t : GoTime) (n : Nat) : String :=
  dumpDir binDir t ++ dumpBaseName t ++ "_" ++ Nat.repr n ++ ".log"

/-- `newDumpFile` (`log.go:317-348`).  `fs` is the filesystem at the time of
the call; `binDir` models `filepath.Abs(filepath.Dir(os.Args[0]))`.  The Go
`for` loop starting at `n = 1` terminates exactly when some probe is not an
existing regular file, which hypothesis `h` supplies; the loop's result — the
first such probe — is `Nat.find h + 1`.  (`os.MkdirAll` only touches
directories, which `isFileExist` ignores, so `fs` is unchanged by it.) -/
def newDumpFile (fs : String → FsEntry) (binDir : String) (t : GoTime)
    (h : ∃ k, isFileExist fs (dumpCand binDir t (k + 1)) = false) : String :=
  let fn := dumpBase binDir t
  if isFileExist fs fn = false then fn
  else dumpCand binDir t (Nat.find h + 1)

/-- The dump record `strLog` of `CatchException` (`log.go:301-309`):
`now` is `fmt.Sprintf("%v", time.Now())`, `errRepr` is `fmt.Sprintf("%#v", err)`
for the recovered value, `stack` is `string(debug.Stack())`. -/
def dumpText (now errRepr stack : String) : String :=
  let bar := String.mk (List.replicate 79 '=')
  "\n" ++ bar ++ "\nTIME: "
    ++ now
    ++ "\nEXCEPTION: "
    ++ errRepr
    ++ "\n" ++ bar ++ "\t\t\n"
    ++ stack

/-- `CatchException` (`log.go:289-314`) as a function of what it observes:
`recovered` is the result of `recover()` (`none` when no panic is
propagating, otherwise the `%#v` rendering of the recovered value),
`openRes` the outcome of `os.OpenFile` on the dump path, `dumpPath` the
name `newDumpFile` returned, `now`/`stack` the timestamp and stack text.
It returns the effects performed and the panic value it re-raises —
the body contains no `panic` call, so that component is built as `none`
on every path. -/
def CatchException (recovered : Option String) (openRes : Except String Unit)
    (dumpPath now stack : String) : List Eff × Option String :=
  match recovered with
  | none => ([], none)
  | some errRepr =>
    match openRes with
    | .error e => ([.consolePrint e], none)
    | .ok _ =>
      let s := dumpText now errRepr stack
      ([.dumpWrite dumpPath s, .consolePrint s], none)

/-- Last-write-wins reading of an option list: the argument of the last
option in `optList` that sets the field projected by `p`, or the default `d`
when no option sets it.  This is the specification-side reading of
"each option mutates the configuration in caller-supplied order with
last-write-wins semantics per field". -/
def lastOf {α : Type} (p : OptionSpec → Option α) (d : α) (optList : List OptionSpec) : α :=
  (optList.reverse.findSome? p).getD d

/-- The argument carried by a `WithMaxSize` option. -/
def argMaxSize : OptionSpec → Option Int
  | .withMaxSize n => some n
  | _ => none

/-- The argument carried by a `WithMaxBackups` option. -/
def argMaxBackups : OptionSpec → Option Int
  | .withMaxBackups n => some n
  | _ => none

/-- The argument carried by a `WithMaxAge` option. -/
def argMaxAge : OptionSpec → Option Int
  | .withMaxAge n => some n
  | _ => none

/-- The argument carried by a `WithLogFileDir` option. -/
def argLogFileDir : OptionSpec → Option String
  | .withLogFileDir s => some s
  | _ => none

/-- The argument carried by a `WithAppName` option. -/
def argAppName : OptionSpec → Option String
  | .withAppName s => some s
  | _ => none

/-- The argument carried by a `WithLevel` option. -/
def argLevel : OptionSpec → Option Int
  | .withLevel lv => some lv
  | _ => none

/-- The argument carried by a `WithFileName` option. -/
def argFileName : OptionSpec → Option String
  | .withFileName s => some s
  | _ => none

/-- The argument carried by a `WithErrorFileName` option. -/
def argErrorFileName : OptionSpec → Option String
  | .withErrorFileName s => some s
  | _ => none

/-- The argument carried by a `WithWarnFileName` option. -/
def argWarnFileName : OptionSpec → Option String
  | .withWarnFileName s => some s
  | _ => none

/-- The argument carried by a `WithInfoFileName` option. -/
def argInfoFileName : OptionSpec → Option String
  | .withInfoFileName s => some s
  | _ => none

/-- The argument carried by a `WithDebugFileName` option. -/
def argDebugFileName : OptionSpec → Option String
  | .withDebugFileName s => some s
  | _ => none

/-- The argument carried by a `WithDevelopment` option. -/
def argDevelopment : OptionSpec → Option Bool
  | .withDevelopment b => some b
  | _ => none

/-- `true` for the options that are not one of the four per-severity
file-name overrides (`WithErrorFileName`, `WithWarnFileName`,
`WithInfoFileName`, `WithDebugFileName`). -/
def keepsSinkFields : OptionSpec → Bool
  | .withErrorFileName _ => false
  | .withWarnFileName _ => false
  | .withInfoFileName _ => false
  | .withDebugFileName _ => false
  | _ => true

/-- Remove the four per-severity file-name override options from a list. -/
def eraseSevNames (optList : List OptionSpec) : List OptionSpec :=
  optList.filter keepsSinkFields

/-- The `Options` fields that `setSyncers` reads: directory, app name, base
file name, and the three rotation limits. -/
structure RelFields where
  dir : String
  app : String
  fn : String
  ms : Int
  mb : Int
  ma : Int
deriving DecidableEq

/-- Projection of an `Options` value to the fields `setSyncers` reads. -/
def relOf (o : Options) : RelFields :=
  ⟨o.logFileDir, o.appName, o.fileName, o.maxSize, o.maxBackups, o.maxAge⟩

/-- The action of one option on the `setSyncers`-relevant fields. -/
def applyRel (r : RelFields) : OptionSpec → RelFields
  | .withMaxSize n => { r with ms := n }
  | .withMaxBackups n => { r with mb := n }
  | .withMaxAge n => { r with ma := n }
  | .withLogFileDir s => { r with dir := s }
  | .withAppName s => { r with app := s }
  | .withFileName s => { r with fn := s }
  | _ => r

/-- A concrete local time used to evaluate the dump-file namer. -/
def tW : GoTime := ⟨2024, 5, 6, 10, 30, 0⟩

/-- A concrete filesystem in which the collision-free dump path for `tW`
under binary directory `/bin` already exists as a regular file and nothing
else exists. -/
def fsW : String → FsEntry :=
  fun s => if s = dumpBase "/bin" tW then .file else .absent

/-! ## Theorems -/

/-- C3: the file sink's name is `outputDir + separator + appName + "-" + suffix`,
except that a suffix of byte length exactly 4 (the length of `".log"`) drops
the hyphen — the branch is taken on length, not on identity with `".log"`. -/
theorem c3_fileName_branches_on_length (dir app suffix : String) :
    (byteLen suffix = 4 → fileName dir app suffix = dir ++ sp ++ app ++ suffix) ∧
    (byteLen suffix ≠ 4 → fileName dir app suffix = dir ++ sp ++ app ++ "-" ++ suffix) := by
  have h4 : byteLen ".log" = 4 := by decide
  constructor <;> intro h <;> simp [fileName, h4, h]

theorem c3_witness :
    fileName "/d" "app" "abcd" = "/d" ++ sp ++ "app" ++ "abcd" ∧
    fileName "/d" "app" "error.log" = "/d" ++ sp ++ "app" ++ "-" ++ "error.log" :=
  ⟨(c3_fileName_branches_on_length "/d" "app" "abcd").1 (by decide),
   (c3_fileName_branches_on_length "/d" "app" "error.log").2 (by decide)⟩

/-- C4: a record at severity `s` is delivered to an attached sink iff
`s ≥ minL`, the configured minimum, and this filter decision is the same for
every core of the tee (both cores carry the same `filePriority` enabler). -/
theorem c4_severity_filter (dev : Bool) (minL : Int) (c : CoreSpec)
    (hc : c ∈ cores dev minL) (s : Int) :
    (c.enabled s = true ↔ minL ≤ s) ∧ c.enabled = filePriority minL := by
  have hand : c.enabled = filePriority minL := by
    cases dev <;> simp [cores] at hc
    · rw [hc]
    · rcases hc with hc | hc <;> rw [hc]
  exact ⟨by simp [hand, filePriority], hand⟩

theorem c4_witness :
    ((⟨EncKind.json, filePriority 0⟩ : CoreSpec).enabled 1 = true ↔ (0 : Int) ≤ 1) ∧
    (⟨EncKind.json, filePriority 0⟩ : CoreSpec).enabled = filePriority 0 :=
  c4_severity_filter false 0 ⟨EncKind.json, filePriority 0⟩ (by simp [cores]) 1

/-- C5 (divergence witness): for EVERY option list the zap configuration's
encoder preset is the Production one and only the time encoder is overridden —
the `l.Opts.Development` test at `log.go:111` runs before the options are
applied at `log.go:124-126`, so selecting Development mode through the options
never switches the preset. -/
theorem c5_preset_always_production (cwd : String) (optList : List OptionSpec) :
    (NewLoggerZapConfig cwd optList).preset = Preset.production ∧
    (NewLoggerZapConfig cwd optList).encodeTime = TimeEnc.custom := ⟨rfl, rfl⟩

/-- C10: for every option list, after `NewLogger` applies its defaults the
zap configuration's `OutputPaths` is `["stderr"]`: the branch testing the
always-empty `ErrorOutputPaths` (`log.go:121-123`) assigns to `OutputPaths`,
overwriting the `["stdout"]` written by the preceding branch. -/
theorem c10_outputPaths_stderr (cwd : String) (optList : List OptionSpec) :
    (NewLoggerZapConfig cwd optList).outputPaths = ["stderr"] := rfl

/-- C7: `CatchException` never re-raises the captured failure (its re-raise
component is `none` on every path), and when the dump file cannot be opened
the open error is printed to the console and nothing is written. -/
theorem c7_catchException_no_reraise (recovered : Option String)
    (openRes : Except String Unit) (dumpPath now stack : String) :
    (CatchException recovered openRes dumpPath now stack).2 = none ∧
    (∀ errRepr e, recovered = some errRepr → openRes = .error e →
      (CatchException recovered openRes dumpPath now stack).1 = [.consolePrint e]) := by
  cases recovered <;> cases openRes <;>
    simp [CatchException]

theorem c7_witness :
    (CatchException (some "boom") (.error "open failed") "/p" "t0" "trace").2 = none ∧
    (CatchException (some "boom") (.error "open failed") "/p" "t0" "trace").1
      = [.consolePrint "open failed"] :=
  ⟨(c7_catchException_no_reraise (some "boom") (.error "open failed") "/p" "t0" "trace").1,
   (c7_catchException_no_reraise (some "boom") (.error "open failed") "/p" "t0" "trace").2
     "boom" "open failed" rfl rfl⟩

/-- C8: `SetLevel` on an uninitialized core (`l == nil`) returns the state
unchanged with no effects; on an initialized core it stores the level so that
the minimum observed by subsequent `filePriority` evaluations equals the
given severity. -/
theorem c8_setLevel (lv : Int) :
    SetLevel none lv = (none, []) ∧
    (∀ st : LState, ∃ stN, (SetLevel (some st) lv).1 = some stN ∧
      stN.opts.level = lv ∧ stN.zc.levelAtomic = lv ∧
      ∀ s, filePriority stN.zc.levelAtomic s = decide (lv ≤ s)) :=
  ⟨rfl, fun _ => ⟨_, rfl, rfl, rfl, fun _ => rfl⟩⟩

/-- The global state at process start: package-level `l` is nil and no sink
has been constructed. -/
def g0 : GState := { l := none, sinkBuilds := 0 }

/-- C1 (divergence witness): two sequential `NewLogger()` calls construct the
sinks twice, and the second call returns the freshly built logger with the
`"[NewLogger] success"` record — not the nil no-op result with the
`"logger Inited"` record — because `l = &Logger{}` at `log.go:91` resets the
`inited` flag before it is tested. -/
theorem c1_second_call_rebuilds :
    ((NewLogger "/w" (NewLogger "/w" g0 []).1 []).1.sinkBuilds = 2) ∧
    ((NewLogger "/w" (NewLogger "/w" g0 []).1 []).2.1 = NewLoggerRes.builtLogger) ∧
    ((NewLogger "/w" (NewLogger "/w" g0 []).1 []).2.2 = [Eff.logInfo "[NewLogger] success"]) :=
  ⟨rfl, rfl, rfl⟩

/-- Folding the options equals the last-write-wins reading, for any field
whose single-option action is described by the projection `p`. -/
theorem applyOpts_lastOf {α : Type} (get : Options → α) (p : OptionSpec → Option α)
    (hc : ∀ o x, get (applyOption o x) = (p x).getD (get o)) :
    ∀ (optList : List OptionSpec) (o : Options),
      get (applyOpts o optList) = lastOf p (get o) optList := by
  intro optList
  induction optList with
  | nil => intro o; rfl
  | cons x xs ih =>
    intro o
    show get (applyOpts (applyOption o x) xs) = lastOf p (get o) (x :: xs)
    rw [ih, lastOf, lastOf, hc, List.reverse_cons, List.findSome?_append]
    cases hfs : List.findSome? p xs.reverse <;> cases hpx : p x <;>
      simp [List.findSome?, hpx, Option.or]

/-- No option touches the `Merge` field (there is no `WithMerge`
combinator). -/
theorem applyOpts_merge : ∀ (optList : List OptionSpec) (o : Options),
    (applyOpts o optList).merge = o.merge := by
  intro optList
  induction optList with
  | nil => intro o; rfl
  | cons x xs ih =>
    intro o
    show (applyOpts (applyOption o x) xs).merge = o.merge
    rw [ih]
    cases x <;> rfl

/-- C6: every field of the configuration `NewLogger` ends with is the
argument of the last option setting that field, and the documented default
when no option touches it: app name `"app"`, base suffix `".log"`, minimum
severity Debug (-1), max size 100, max backups 60, max age 30, Production
mode (development `false`), merge disabled, output directory
`<cwd>/logs/` when unset, per-severity override names empty. -/
theorem c6_last_write_wins_and_defaults (cwd : String) (optList : List OptionSpec) :
    (NewLoggerOpts cwd optList).appName = lastOf argAppName "app" optList ∧
    (NewLoggerOpts cwd optList).fileName = lastOf argFileName ".log" optList ∧
    (NewLoggerOpts cwd optList).level = lastOf argLevel (-1) optList ∧
    (NewLoggerOpts cwd optList).maxSize = lastOf argMaxSize 100 optList ∧
    (NewLoggerOpts cwd optList).maxBackups = lastOf argMaxBackups 60 optList ∧
    (NewLoggerOpts cwd optList).maxAge = lastOf argMaxAge 30 optList ∧
    (NewLoggerOpts cwd optList).development = lastOf argDevelopment false optList ∧
    (NewLoggerOpts cwd optList).logFileDir
      = lastOf argLogFileDir (cwd ++ sp ++ "logs" ++ sp) optList ∧
    (NewLoggerOpts cwd optList).errorFileName = lastOf argErrorFileName "" optList ∧
    (NewLoggerOpts cwd optList).warnFileName = lastOf argWarnFileName "" optList ∧
    (NewLoggerOpts cwd optList).infoFileName = lastOf argInfoFileName "" optList ∧
    (NewLoggerOpts cwd optList).debugFileName = lastOf argDebugFileName "" optList ∧
    (NewLoggerOpts cwd optList).merge = false := by
  refine ⟨?_, ?_, ?_, ?_, ?_, ?_, ?_, ?_, ?_, ?_, ?_, ?_, ?_⟩
  · exact applyOpts_lastOf Options.appName argAppName
      (fun o x => by cases x <;> rfl) optList (preOpts cwd)
  · exact applyOpts_lastOf Options.fileName argFileName
      (fun o x => by cases x <;> rfl) optList (preOpts cwd)
  · exact applyOpts_lastOf Options.level argLevel
      (fun o x => by cases x <;> rfl) optList (preOpts cwd)
  · exact applyOpts_lastOf Options.maxSize argMaxSize
      (fun o x => by cases x <;> rfl) optList (preOpts cwd)
  · exact applyOpts_lastOf Options.maxBackups argMaxBackups
      (fun o x => by cases x <;> rfl) optList (preOpts cwd)
  · exact applyOpts_lastOf Options.maxAge argMaxAge
      (fun o x => by cases x <;> rfl) optList (preOpts cwd)
  · exact applyOpts_lastOf Options.development argDevelopment
      (fun o x => by cases x <;> rfl) optList (preOpts cwd)
  · exact applyOpts_lastOf Options.logFileDir argLogFileDir
      (fun o x => by cases x <;> rfl) optList (preOpts cwd)
  · exact applyOpts_lastOf Options.errorFileName argErrorFileName
      (fun o x => by cases x <;> rfl) optList (preOpts cwd)
  · exact applyOpts_lastOf Options.warnFileName argWarnFileName
      (fun o x => by cases x <;> rfl) optList (preOpts cwd)
  · exact applyOpts_lastOf Options.infoFileName argInfoFileName
      (fun o x => by cases x <;> rfl) optList (preOpts cwd)
  · exact applyOpts_lastOf Options.debugFileName argDebugFileName
      (fun o x => by cases x <;> rfl) optList (preOpts cwd)
  · exact applyOpts_merge optList (preOpts cwd)

/-- One option acts on the `setSyncers`-relevant fields as `applyRel`. -/
theorem relOf_applyOption (o : Options) (x : OptionSpec) :
    relOf (applyOption o x) = applyRel (relOf o) x := by
  cases x <;> rfl

/-- The `setSyncers`-relevant fields after the whole option list are a fold of
`applyRel`. -/
theorem relOf_applyOpts : ∀ (optList : List OptionSpec) (o : Options),
    relOf (applyOpts o optList) = optList.foldl applyRel (relOf o) := by
  intro optList
  induction optList with
  | nil => intro o; rfl
  | cons x xs ih =>
    intro o
    show relOf (applyOpts (applyOption o x) xs) = _
    rw [ih, List.foldl_cons, relOf_applyOption]

/-- A per-severity file-name override option leaves the
`setSyncers`-relevant fields unchanged. -/
theorem applyRel_skip (r : RelFields) (x : OptionSpec)
    (hx : keepsSinkFields x = false) : applyRel r x = r := by
  cases x <;> simp [keepsSinkFields] at hx ⊢ <;> rfl

/-- Folding `applyRel` ignores the erased per-severity file-name options. -/
theorem foldl_applyRel_erase : ∀ (optList : List OptionSpec) (r : RelFields),
    optList.foldl applyRel r = (eraseSevNames optList).foldl applyRel r := by
  intro optList
  induction optList with
  | nil => intro r; rfl
  | cons x xs ih =>
    intro r
    rw [List.foldl_cons]
    cases hx : keepsSinkFields x with
    | false =>
      rw [applyRel_skip r x hx, eraseSevNames, List.filter_cons, hx]
      exact ih r
    | true =>
      rw [eraseSevNames, List.filter_cons, hx]
      simp only [List.foldl_cons]
      exact ih (applyRel r x)

/-- `setSyncers` reads only the fields collected in `relOf`. -/
theorem setSyncers_congr (o1 o2 : Options) (h : relOf o1 = relOf o2) :
    setSyncers o1 = setSyncers o2 := by
  cases o1
  cases o2
  simp only [relOf, RelFields.mk.injEq] at h
  obtain ⟨h1, h2, h3, h4, h5, h6⟩ := h
  simp [setSyncers, fileName, h1, h2, h3, h4, h5, h6]

/-- C9: the file sink is identical for any two option lists that agree after
the per-severity file-name override options are removed — `setSyncers` never
reads `ErrorFileName`, `WarnFileName`, `InfoFileName` or `DebugFileName`. -/
theorem c9_sink_ignores_sev_file_names (cwd : String) (l1 l2 : List OptionSpec)
    (h : eraseSevNames l1 = eraseSevNames l2) :
    setSyncers (NewLoggerOpts cwd l1) = setSyncers (NewLoggerOpts cwd l2) := by
  apply setSyncers_congr
  rw [NewLoggerOpts, NewLoggerOpts, relOf_applyOpts, relOf_applyOpts,
    foldl_applyRel_erase l1, foldl_applyRel_erase l2, h]

theorem c9_witness :
    setSyncers (NewLoggerOpts "/w" [OptionSpec.withErrorFileName "a"])
      = setSyncers (NewLoggerOpts "/w" [OptionSpec.withErrorFileName "b"]) :=
  c9_sink_ignores_sev_file_names "/w" [OptionSpec.withErrorFileName "a"]
    [OptionSpec.withErrorFileName "b"] (by decide)

/-- C2: when the collision-free path
`<binDir>/exceptions/<YYYY-MM-DD>/exceptions.<HH>_<MM>_<SS>.log` (zero-padded
fields) does not exist as a regular file, `newDumpFile` returns it; otherwise
it returns the same path with `_n` before `.log` for the smallest positive
`n` whose path does not exist as a regular file (entries that are directories
count as not existing, by `isFileExist`). -/
theorem c2_newDumpFile (fs : String → FsEntry) (binDir : String) (t : GoTime)
    (h : ∃ k, isFileExist fs (dumpCand binDir t (k + 1)) = false) :
    (isFileExist fs (dumpBase binDir t) = false →
      newDumpFile fs binDir t h
        = trimRightSlash binDir ++ "/exceptions/" ++ padZero 4 t.year ++ "-"
          ++ padZero 2 t.month ++ "-" ++ padZero 2 t.day ++ "/" ++ "exceptions."
          ++ padZero 2 t.hour ++ "_" ++ padZero 2 t.minute ++ "_" ++ padZero 2 t.second
          ++ ".log") ∧
    (isFileExist fs (dumpBase binDir t) = true →
      ∃ n, 0 < n ∧
        newDumpFile fs binDir t h = dumpCand binDir t n ∧
        dumpCand binDir t n
          = trimRightSlash binDir ++ "/exceptions/" ++ padZero 4 t.year ++ "-"
            ++ padZero 2 t.month ++ "-" ++ padZero 2 t.day ++ "/" ++ "exceptions."
            ++ padZero 2 t.hour ++ "_" ++ padZero 2 t.minute ++ "_" ++ padZero 2 t.second
            ++ "_" ++ Nat.repr n ++ ".log" ∧
        isFileExist fs (dumpCand binDir t n) = false ∧
        ∀ m, 0 < m → m < n → isFileExist fs (dumpCand binDir t m) = true) := by
  have hbase : dumpBase binDir t
      = trimRightSlash binDir ++ "/exceptions/" ++ padZero 4 t.year ++ "-"
        ++ padZero 2 t.month ++ "-" ++ padZero 2 t.day ++ "/" ++ "exceptions."
        ++ padZero 2 t.hour ++ "_" ++ padZero 2 t.minute ++ "_" ++ padZero 2 t.second
        ++ ".log" := by
    simp only [dumpBase, dumpDir, dumpBaseName, String.append_assoc]
  have hcand : ∀ n, dumpCand binDir t n
      = trimRightSlash binDir ++ "/exceptions/" ++ padZero 4 t.year ++ "-"
        ++ padZero 2 t.month ++ "-" ++ padZero 2 t.day ++ "/" ++ "exceptions."
        ++ padZero 2 t.hour ++ "_" ++ padZero 2 t.minute ++ "_" ++ padZero 2 t.second
        ++ "_" ++ Nat.repr n ++ ".log" := by
    intro n
    simp only [dumpCand, dumpDir, dumpBaseName, String.append_assoc]
  constructor
  · intro h0
    simp only [newDumpFile, h0, if_pos rfl]
    exact hbase
  · intro h1
    refine ⟨Nat.find h + 1, Nat.succ_pos _, ?_, hcand _, Nat.find_spec h, ?_⟩
    · simp [newDumpFile, h1]
    · intro m hm0 hmlt
      obtain ⟨j, rfl⟩ : ∃ j, m = j + 1 := ⟨m - 1, (Nat.succ_pred_eq_of_pos hm0).symm⟩
      have hj : j < Nat.find h := by omega
      have hmin := Nat.find_min h hj
      cases hb : isFileExist fs (dumpCand binDir t (j + 1)) with
      | false => exact absurd hb hmin
      | true => rfl

/-- In `fsW` some probe (already the first) is unused, so the Go collision
loop terminates. -/
theorem c2HypW : ∃ k, isFileExist fsW (dumpCand "/bin" tW (k + 1)) = false :=
  ⟨0, by decide⟩

theorem c2_witness :
    ∃ n, 0 < n ∧
      newDumpFile fsW "/bin" tW c2HypW = dumpCand "/bin" tW n ∧
      dumpCand "/bin" tW n
        = trimRightSlash "/bin" ++ "/exceptions/" ++ padZero 4 tW.year ++ "-"
          ++ padZero 2 tW.month ++ "-" ++ padZero 2 tW.day ++ "/" ++ "exceptions."
          ++ padZero 2 tW.hour ++ "_" ++ padZero 2 tW.minute ++ "_" ++ padZero 2 tW.second
          ++ "_" ++ Nat.repr n ++ ".log" ∧
      isFileExist fsW (dumpCand "/bin" tW n) = false ∧
      ∀ m, 0 < m → m < n → isFileExist fsW (dumpCand "/bin" tW m) = true :=
  (c2_newDumpFile fsW "/bin" tW c2HypW).2 (by decide)

end GoLog
